import Mathlib

/-!
Verification of the structural pattern detection and selector synthesis
engine of the Scrapper repository. The document tree is reached through a
facade (tag name, id, class string, attribute map, text content, serialized
markup, geometry, display mode, children); elements are embedded as a
nested inductive over that facade data. Scores are rationals. The finders'
scoring passes, the selector rankers, the inline post-processor and the
caching extraction pipeline are translated from
src/content/selectors/table-detector.js, list-detector.js,
product-detector.js and the engine file src/unnamed/part_000.
-/

/-- JS `String.prototype.includes` on character lists: `pat` occurs
contiguously in `s`. Searching the empty pattern succeeds. -/
def strContainsAux : List Char → List Char → Bool
  | _, [] => true
  | [], _ :: _ => false
  | s@(_ :: rest), pat => pat.isPrefixOf s || strContainsAux rest pat

/-- JS `s.includes(pat)` (case sensitive). -/
def strContains (s pat : String) : Bool :=
  strContainsAux s.toList pat.toList

/-- JS `[...new Set(arr)]`: deduplicate keeping the first occurrence of
each element, in insertion order. -/
def jsSetDedup {α : Type} [DecidableEq α] (l : List α) : List α :=
  l.foldl (fun acc x => if x ∈ acc then acc else acc ++ [x]) []

/-- The scalar facade reads of one document node: tag name, id, class
attribute, attribute map, text content, serialized inner markup, bounding
rectangle, offset geometry and computed display mode. -/
structure ElemInfo where
  tagName : String := ""
  id : String := ""
  className : String := ""
  attributes : List (String × String) := []
  textContent : String := ""
  innerHTML : String := ""
  rectWidth : ℚ := 0
  rectHeight : ℚ := 0
  offsetWidth : ℚ := 0
  offsetHeight : ℚ := 0
  display : String := ""
deriving DecidableEq, Repr

/-- A document node: its facade data together with its child list. -/
inductive Elem where
  | mk (info : ElemInfo) (children : List Elem)
deriving Repr

mutual

/-- Node identity test, used to embed the reference comparison
`elements[0] === targetElement`: two nodes of the embedded tree are the
same node exactly when all their facade data and children agree. -/
def elemBEq : Elem → Elem → Bool
  | .mk i cs, .mk j ds => i == j && elemListBEq cs ds

def elemListBEq : List Elem → List Elem → Bool
  | [], [] => true
  | a :: as, b :: bs => elemBEq a b && elemListBEq as bs
  | _, _ => false

end

instance : BEq Elem := ⟨elemBEq⟩

def Elem.info : Elem → ElemInfo
  | .mk i _ => i

def Elem.children : Elem → List Elem
  | .mk _ cs => cs

def Elem.tagName (e : Elem) : String := e.info.tagName

def Elem.id (e : Elem) : String := e.info.id

def Elem.className (e : Elem) : String := e.info.className

def Elem.attributes (e : Elem) : List (String × String) := e.info.attributes

def Elem.textContent (e : Elem) : String := e.info.textContent

def Elem.innerHTML (e : Elem) : String := e.info.innerHTML

def Elem.rectWidth (e : Elem) : ℚ := e.info.rectWidth

def Elem.rectHeight (e : Elem) : ℚ := e.info.rectHeight

def Elem.offsetWidth (e : Elem) : ℚ := e.info.offsetWidth

def Elem.offsetHeight (e : Elem) : ℚ := e.info.offsetHeight

def Elem.display (e : Elem) : String := e.info.display

/-- `table.rows` facade read. The embedding assumes row elements are the
direct children of the table node (no thead/tbody wrapper is modelled). -/
def Elem.rows (e : Elem) : List Elem := e.children

/-- `row.cells` facade read: the cells of a row are its direct children. -/
def Elem.cells (e : Elem) : List Elem := e.children

/-- `element.hasAttribute(name)`. -/
def Elem.hasAttribute (e : Elem) (name : String) : Bool :=
  (e.attributes.lookup name).isSome

/-- `element.getAttribute(name)`, defaulting to the empty string (the code
only reads an attribute after `hasAttribute` succeeded). -/
def Elem.getAttribute (e : Elem) (name : String) : String :=
  (e.attributes.lookup name).getD ""

/-- `element.className.trim().split(/\s+/).filter(c => c)`: the node's
whitespace-split class list. -/
def Elem.classList (e : Elem) : List String :=
  (e.className.split Char.isWhitespace).filter (fun c => c ≠ "")

mutual

/-- All proper descendants of a node, in document order: the search space
of `element.querySelector`/`querySelectorAll` scoped to the node. -/
def Elem.descendants : Elem → List Elem
  | .mk _ cs => descendantsList cs

/-- Descendant collection over a child list: each child followed by its
own descendants. -/
def descendantsList : List Elem → List Elem
  | [] => []
  | c :: cs => c :: c.descendants ++ descendantsList cs

end

/-- A scored pattern candidate as built by a finder's scoring pass:
`{element, score, confidence, reasons, metadata}` with kind-specific
metadata `μ`. -/
structure Candidate (μ : Type) where
  element : Elem
  score : ℚ
  confidence : ℚ
  reasons : List String
  metadata : μ

/-- The descending-by-score order the finders' `.sort((a, b) =>
b.score - a.score)` establishes. -/
def scoreGE {μ : Type} (a b : Candidate μ) : Prop := b.score ≤ a.score

instance {μ : Type} : DecidableRel (@scoreGE μ) :=
  fun a b => inferInstanceAs (Decidable (b.score ≤ a.score))

instance {μ : Type} : IsTotal (Candidate μ) scoreGE :=
  ⟨fun a b => (le_total b.score a.score).imp (fun h => h) (fun h => h)⟩

instance {μ : Type} : IsTrans (Candidate μ) scoreGE :=
  ⟨fun _ _ _ h h2 => le_trans h2 h⟩

namespace TableDetector

def CONFIDENCE_THRESHOLD : ℚ := 0.6

def MIN_ROWS : ℕ := 2

def MIN_COLS : ℕ := 2

/-- `style.display.includes('block') || ...('flex') || ...('grid')`. -/
def isBlockDisplay (d : String) : Bool :=
  strContains d "block" || strContains d "flex" || strContains d "grid"

/-- `TableDetector.getRowCount`: native tables report `rows.length`;
other containers count the children that render block/flex/grid with a
positive offset height. -/
def getRowCount (table : Elem) : ℕ :=
  if table.tagName.toLower = "table" then
    table.rows.length
  else
    table.children.countP (fun child =>
      isBlockDisplay child.display && decide (0 < child.offsetHeight))

/-- `TableDetector.getColumnCount`: native tables report the first row's
cell count; other containers take the maximum child count over the first
`min(5, n)` children. -/
def getColumnCount (table : Elem) : ℕ :=
  if table.tagName.toLower = "table" then
    match table.rows with
    | [] => 0
    | firstRow :: _ => firstRow.cells.length
  else
    ((table.children.take (min 5 table.children.length)).map
      (fun row => row.children.length)).foldl max 0

/-- `TableDetector.getTextDensity`: trimmed text length over serialized
markup length, zero on empty markup. -/
def getTextDensity (table : Elem) : ℚ :=
  if table.innerHTML.length = 0 then 0
  else (table.textContent.trim.length : ℚ) / (table.innerHTML.length : ℚ)

/-- `TableDetector.getDivStructureScore`: among children at indices
`1 ≤ i < min(5, n)`, the count whose child count equals the first child's,
divided by `min(5, n - 1)`. -/
def getDivStructureScore (div : Elem) : ℚ :=
  if div.children.length < 2 then 0
  else
    match div.children with
    | [] => 0
    | firstRow :: rest =>
      let firstRowChildren := firstRow.children.length
      let examined := rest.take (min 5 div.children.length - 1)
      let consistentRows := examined.countP
        (fun c => c.children.length = firstRowChildren)
      (consistentRows : ℚ) / ((min 5 (div.children.length - 1) : ℕ) : ℚ)

/-- `TableDetector.getStructureScore`: for a native table, among rows at
indices `1 ≤ i < min(10, n)`, the count whose cell count equals the first
row's, divided by `min(10, n - 1)`; other nodes use the div variant. -/
def getStructureScore (table : Elem) : ℚ :=
  if table.tagName.toLower ≠ "table" then getDivStructureScore table
  else if table.rows.length < 2 then 0
  else
    match table.rows with
    | [] => 0
    | firstRow :: rest =>
      let firstRowCols := firstRow.cells.length
      let examined := rest.take (min 10 table.rows.length - 1)
      let consistentRows := examined.countP
        (fun r => r.cells.length = firstRowCols)
      (consistentRows : ℚ) / ((min 10 (table.rows.length - 1) : ℕ) : ℚ)

/-- The semantic attribute names `TableDetector.getSemanticScore` probes. -/
def semanticAttrs : List String := ["role", "aria-label", "data-table", "data-grid"]

/-- The class-name vocabulary of `TableDetector.getSemanticScore`. -/
def tableWords : List String := ["table", "grid", "list", "data", "results", "products"]

/-- The content keywords of `TableDetector.getSemanticScore`. -/
def contentPatterns : List String := ["price", "total", "quantity", "description", "name"]

/-- `TableDetector.getSemanticScore`: 0.1 per semantic attribute whose
value mentions table/grid, 0.05 per matching class word, 0.02 per content
keyword in the text, capped at 0.25. -/
def getSemanticScore (table : Elem) : ℚ :=
  let attrScore := (semanticAttrs.countP (fun attr =>
    table.hasAttribute attr &&
      (strContains (table.getAttribute attr).toLower "table" ||
       strContains (table.getAttribute attr).toLower "grid") ) : ℚ) * 0.1
  let classScore := (tableWords.countP
    (fun word => strContains table.className.toLower word) : ℚ) * 0.05
  let textScore := (contentPatterns.countP
    (fun pat => strContains table.textContent.toLower pat) : ℚ) * 0.02
  min 0.25 (attrScore + classScore + textScore)

/-- Kind-specific metadata of a tabular candidate. -/
structure TableMeta where
  rows : ℕ
  columns : ℕ
  textDensity : ℚ
  tagName : String

/-- The additive raw confidence of one table: native-element bonus, size
bonuses, text density, weighted structure consistency, semantic score and
visibility bonus, in the order `TableDetector.scoreTables` accumulates
them. -/
def tableRawScore (table : Elem) : ℚ :=
  (if table.tagName.toLower = "table" then 0.3 else 0) +
  (if 5 ≤ getRowCount table then 0.2 else 0) +
  (if 3 ≤ getColumnCount table then 0.15 else 0) +
  (if 0.1 < getTextDensity table then 0.1 else 0) +
  getStructureScore table * 0.15 +
  getSemanticScore table +
  (if 100 < table.rectWidth ∧ 50 < table.rectHeight then 0.1 else 0)

/-- The `reasons` strings `TableDetector.scoreTables` pushes. -/
def tableReasons (table : Elem) : List String :=
  (if table.tagName.toLower = "table" then ["Native table element"] else []) ++
  (if 5 ≤ getRowCount table then ["Has 5+ rows"] else []) ++
  (if 3 ≤ getColumnCount table then ["Has 3+ columns"] else []) ++
  (if 0.1 < getTextDensity table then ["Good text density"] else []) ++
  (if 0.7 < getStructureScore table then ["Consistent structure"] else []) ++
  (if 100 < table.rectWidth ∧ 50 < table.rectHeight then ["Visible on screen"] else [])

/-- One mapped entry of `TableDetector.scoreTables`: score clamped to 1,
confidence left at the raw sum. -/
def scoreTable (table : Elem) : Candidate TableMeta :=
  { element := table
    score := min 1 (tableRawScore table)
    confidence := tableRawScore table
    reasons := tableReasons table
    metadata :=
      { rows := getRowCount table
        columns := getColumnCount table
        textDensity := getTextDensity table
        tagName := table.tagName } }

/-- `TableDetector.scoreTables`: map each nominated node to a candidate,
drop candidates under the 0.6 threshold, sort descending by score. -/
def scoreTables (tables : List Elem) : List (Candidate TableMeta) :=
  List.insertionSort scoreGE
    (((tables.map scoreTable)).filter
      (fun t => decide (CONFIDENCE_THRESHOLD ≤ t.score)))

end TableDetector

namespace ListDetector

def CONFIDENCE_THRESHOLD : ℚ := 0.5

def MIN_ITEMS : ℕ := 3

/-- `ListDetector.getItemCount`: native lists report `children.length`;
other containers count the children with a positive offset height. -/
def getItemCount (list : Elem) : ℕ :=
  if list.tagName.toLower = "ul" ∨ list.tagName.toLower = "ol" then
    list.children.length
  else
    list.children.countP (fun child => decide (0 < child.offsetHeight))

/-- `ListDetector.getConsistencyScore`: among children at indices
`1 ≤ i < min(10, n)`, the count whose tag and class both equal the first
child's, divided by `min(10, n - 1)`. -/
def getConsistencyScore (list : Elem) : ℚ :=
  if list.children.length < 2 then 0
  else
    match list.children with
    | [] => 0
    | firstChild :: rest =>
      let examined := rest.take (min 10 list.children.length - 1)
      let similarCount := examined.countP (fun child =>
        child.tagName = firstChild.tagName ∧
          child.className = firstChild.className)
      (similarCount : ℚ) / ((min 10 (list.children.length - 1) : ℕ) : ℚ)

/-- `ListDetector.getTextDensity`. -/
def getTextDensity (list : Elem) : ℚ :=
  if list.innerHTML.length = 0 then 0
  else (list.textContent.trim.length : ℚ) / (list.innerHTML.length : ℚ)

/-- The semantic attribute names `ListDetector.getSemanticScore` probes. -/
def semanticAttrs : List String := ["role", "aria-label", "data-list", "data-items"]

/-- The class-name vocabulary of `ListDetector.getSemanticScore`. -/
def listWords : List String := ["list", "items", "collection", "products", "menu", "nav"]

/-- `ListDetector.getSemanticScore`: 0.1 per semantic attribute whose
value mentions list/items, 0.05 per matching class word, capped at
0.25. -/
def getSemanticScore (list : Elem) : ℚ :=
  let attrScore := (semanticAttrs.countP (fun attr =>
    list.hasAttribute attr &&
      (strContains (list.getAttribute attr).toLower "list" ||
       strContains (list.getAttribute attr).toLower "items") ) : ℚ) * 0.1
  let classScore := (listWords.countP
    (fun word => strContains list.className.toLower word) : ℚ) * 0.05
  min 0.25 (attrScore + classScore)

/-- Kind-specific metadata of a list candidate. -/
structure ListMeta where
  items : ℕ
  tagName : String
  textDensity : ℚ

/-- The additive raw confidence of one list, in the order
`ListDetector.scoreLists` accumulates it. -/
def listRawScore (list : Elem) : ℚ :=
  (if list.tagName.toLower = "ul" ∨ list.tagName.toLower = "ol" then 0.3 else 0) +
  (if 5 ≤ getItemCount list then 0.2 else 0) +
  getConsistencyScore list * 0.2 +
  (if 0.2 < getTextDensity list then 0.1 else 0) +
  getSemanticScore list +
  (if 50 < list.rectWidth ∧ 50 < list.rectHeight then 0.1 else 0)

/-- The `reasons` strings `ListDetector.scoreLists` pushes. -/
def listReasons (list : Elem) : List String :=
  (if list.tagName.toLower = "ul" ∨ list.tagName.toLower = "ol"
    then ["Native list element"] else []) ++
  (if 5 ≤ getItemCount list
    then ["Has " ++ toString (getItemCount list) ++ " items"] else []) ++
  (if 0.7 < getConsistencyScore list then ["Consistent items"] else []) ++
  (if 0.2 < getTextDensity list then ["Good text content"] else []) ++
  (if 50 < list.rectWidth ∧ 50 < list.rectHeight then ["Visible on screen"] else [])

/-- One mapped entry of `ListDetector.scoreLists`. -/
def scoreList (list : Elem) : Candidate ListMeta :=
  { element := list
    score := min 1 (listRawScore list)
    confidence := listRawScore list
    reasons := listReasons list
    metadata :=
      { items := getItemCount list
        tagName := list.tagName.toLower
        textDensity := getTextDensity list } }

/-- `ListDetector.scoreLists`: map, filter by the 0.5 threshold, sort
descending by score. -/
def scoreLists (lists : List Elem) : List (Candidate ListMeta) :=
  List.insertionSort scoreGE
    ((lists.map scoreList).filter
      (fun l => decide (CONFIDENCE_THRESHOLD ≤ l.score)))

end ListDetector

namespace ProductDetector

def CONFIDENCE_THRESHOLD : ℚ := 0.6

/-- A character of the JS class `[\d,]`. -/
def digitComma (c : Char) : Bool := c.isDigit || c = ','

/-- Matchability of `/sym[\d,]+(?:\.\d{2})?/` at the head of a character
list: the leading symbol followed by at least one digit-or-comma (the
optional cents group cannot make matching fail). -/
def symbolPriceAt (sym : Char) : List Char → Bool
  | a :: b :: _ => a = sym && digitComma b
  | _ => false

/-- The currency-code alternatives of the suffix price pattern. -/
def currencyCodes : List String := ["USD", "EUR", "GBP", "JPY"]

/-- `\s*(?:USD|EUR|GBP|JPY)` with the `i` flag: skip whitespace, then a
currency code compared case-insensitively. -/
def spacesThenCode (cs : List Char) : Bool :=
  let rest := (cs.dropWhile Char.isWhitespace).map Char.toUpper
  currencyCodes.any (fun code => code.toList.isPrefixOf rest)

/-- Matchability of `/[\d,]+(?:\.\d{2})?\s*(?:USD|...)/i` anchored at a
position chosen as the last character the `[\d,]+` group consumes: one
digit-or-comma, then the optional cents group, whitespace, and a code. -/
def codeSuffixAt : List Char → Bool
  | c :: rest =>
    digitComma c &&
      (match rest with
       | '.' :: d1 :: d2 :: r2 =>
         (d1.isDigit && d2.isDigit && spacesThenCode r2) || spacesThenCode rest
       | _ => spacesThenCode rest)
  | [] => false

/-- `pattern.test(text)`: the anchored matcher succeeds at some suffix. -/
def anySuffix (p : List Char → Bool) : List Char → Bool
  | [] => p []
  | l@(_ :: rest) => p l || anySuffix p rest

/-- `ProductDetector.containsPrice`: some pattern of `PRICE_PATTERNS`
(`$`, `€`, `£`, `¥` prefixed, or `USD|EUR|GBP|JPY` suffixed) matches. -/
def containsPrice (text : String) : Bool :=
  let cs := text.toList
  anySuffix (symbolPriceAt '$') cs ||
  anySuffix (symbolPriceAt '€') cs ||
  anySuffix (symbolPriceAt '£') cs ||
  anySuffix (symbolPriceAt '¥') cs ||
  anySuffix codeSuffixAt cs

/-- The fixed product vocabulary `PRODUCT_PATTERNS`. -/
def PRODUCT_PATTERNS : List String :=
  ["product", "item", "card", "good", "merchandise",
   "listing", "offer", "deal", "sale", "buy"]

/-- `ProductDetector.containsProductKeywords`. -/
def containsProductKeywords (text : String) : Bool :=
  PRODUCT_PATTERNS.any (fun keyword => strContains text.toLower keyword)

/-- `element.querySelector('img') !== null`. -/
def hasImageIn (e : Elem) : Bool :=
  e.descendants.any (fun d => d.tagName.toLower = "img")

/-- One node against `'button, .btn, [role="button"]'`. -/
def matchesButtonSel (d : Elem) : Bool :=
  d.tagName.toLower = "button" || d.classList.contains "btn" ||
    (d.hasAttribute "role" && d.getAttribute "role" = "button")

/-- `element.querySelector('button, .btn, [role="button"]') !== null`. -/
def hasButtonIn (e : Elem) : Bool :=
  e.descendants.any matchesButtonSel

/-- One node against `'h1, h2, h3, h4, [class*="title"], [class*="name"]'`. -/
def matchesTitleSel (d : Elem) : Bool :=
  d.tagName.toLower = "h1" || d.tagName.toLower = "h2" ||
  d.tagName.toLower = "h3" || d.tagName.toLower = "h4" ||
  strContains d.className "title" || strContains d.className "name"

/-- `element.querySelector('h1, h2, h3, h4, [class*="title"], [class*="name"]') !== null`. -/
def hasTitleIn (e : Elem) : Bool :=
  e.descendants.any matchesTitleSel

/-- The additive rubric of `ProductDetector.isProductLike`: price 3,
image 2, actionable control 1, title-like heading 1, plus 1 when the
bounding box exceeds 100×50. -/
def productLikeScore (e : Elem) : ℕ :=
  (if containsPrice e.textContent then 3 else 0) +
  (if hasImageIn e then 2 else 0) +
  (if hasButtonIn e then 1 else 0) +
  (if hasTitleIn e then 1 else 0) +
  (if 100 < e.rectWidth ∧ 50 < e.rectHeight then 1 else 0)

/-- `ProductDetector.isProductLike`: the rubric total reaches 3. -/
def isProductLike (e : Elem) : Bool :=
  3 ≤ productLikeScore e

/-- `ProductDetector.findGridProducts` applied to the queried
`div, section, ul, li` pool: keep grid/flex containers with at least two
children of which at least two of the first `min(5, n)` look like
products. -/
def findGridProducts (elements : List Elem) : List Elem :=
  elements.filter (fun el =>
    (strContains el.display "grid" || strContains el.display "flex") &&
    decide (2 ≤ el.children.length) &&
    decide (2 ≤ (el.children.take (min 5 el.children.length)).countP isProductLike))

/-- The three consistency measurements of `ProductDetector.analyzePattern`. -/
structure PatternScores where
  consistentStructure : ℚ
  consistentClasses : ℚ
  consistentSize : ℚ

/-- `ProductDetector.analyzePattern` over a child list: tag uniformity,
class uniformity and size uniformity of the first `min(5, n)` children. -/
def analyzePattern (children : List Elem) : PatternScores :=
  let samples := children.take (min 5 children.length)
  let uniqueTags := jsSetDedup (samples.map (fun child => child.tagName))
  let uniqueClasses := jsSetDedup
    ((samples.map (fun child => child.className)).filter (fun c => c ≠ ""))
  let sizeConsistent :=
    match samples with
    | [] => true
    | s0 :: _ => samples.all (fun s =>
        decide (abs (s.offsetWidth - s0.offsetWidth) < 50) &&
        decide (abs (s.offsetHeight - s0.offsetHeight) < 50))
  { consistentStructure := if uniqueTags.length = 1 then 1.0 else 0.5
    consistentClasses := if uniqueClasses.length ≤ 2 then 1.0 else 0.3
    consistentSize := if sizeConsistent then 1.0 else 0.2 }

/-- `ProductDetector.countProductChildren`: product-like children among
the first `min(10, n)`. -/
def countProductChildren (container : Elem) : ℕ :=
  (container.children.take (min 10 container.children.length)).countP isProductLike

/-- The semantic attribute names `ProductDetector.getSemanticScore`
probes. -/
def semanticAttrs : List String := ["role", "data-product", "data-items", "aria-label"]

/-- The class-name vocabulary of `ProductDetector.getSemanticScore`. -/
def productWords : List String :=
  ["product", "catalog", "grid", "list", "items", "shop", "store"]

/-- `ProductDetector.getSemanticScore`: 0.1 per semantic attribute whose
value mentions product/grid/list, 0.05 per matching class word, 0.1 when
the id mentions product/catalog, capped at 0.25. -/
def getSemanticScore (e : Elem) : ℚ :=
  let attrScore := (semanticAttrs.countP (fun attr =>
    e.hasAttribute attr &&
      (strContains (e.getAttribute attr).toLower "product" ||
       strContains (e.getAttribute attr).toLower "grid" ||
       strContains (e.getAttribute attr).toLower "list") ) : ℚ) * 0.1
  let classScore := (productWords.countP
    (fun word => strContains e.className.toLower word) : ℚ) * 0.05
  let idScore : ℚ :=
    if strContains e.id.toLower "product" || strContains e.id.toLower "catalog"
      then 0.1 else 0
  min 0.25 (attrScore + classScore + idScore)

/-- Kind-specific metadata of a product candidate. -/
structure ProdMeta where
  items : ℕ
  productItems : ℕ
  patternScore : PatternScores

/-- The additive raw confidence of one container, in the order
`ProductDetector.scoreContainers` accumulates it. -/
def containerRawScore (container : Elem) : ℚ :=
  let childCount := container.children.length
  let productRatio : ℚ :=
    (countProductChildren container : ℚ) / ((max 1 childCount : ℕ) : ℚ)
  let pattern := analyzePattern container.children
  (if 3 ≤ childCount then 0.2 else 0) +
  productRatio * 0.3 +
  (pattern.consistentStructure + pattern.consistentClasses +
    pattern.consistentSize) / 3 * 0.2 +
  getSemanticScore container +
  (if 200 < container.rectWidth ∧ 100 < container.rectHeight then 0.1 else 0)

/-- The `reasons` strings `ProductDetector.scoreContainers` pushes. -/
def containerReasons (container : Elem) : List String :=
  let childCount := container.children.length
  let productRatio : ℚ :=
    (countProductChildren container : ℚ) / ((max 1 childCount : ℕ) : ℚ)
  let pattern := analyzePattern container.children
  (if 3 ≤ childCount
    then ["Has " ++ toString childCount ++ " items"] else []) ++
  (if (1 : ℚ)/2 < productRatio
    then [toString (round (productRatio * 100)) ++ "% product-like items"] else []) ++
  (if 0.8 < pattern.consistentStructure then ["Consistent structure"] else [])

/-- One mapped entry of `ProductDetector.scoreContainers`. -/
def scoreContainer (container : Elem) : Candidate ProdMeta :=
  { element := container
    score := min 1 (containerRawScore container)
    confidence := containerRawScore container
    reasons := containerReasons container
    metadata :=
      { items := container.children.length
        productItems := countProductChildren container
        patternScore := analyzePattern container.children } }

/-- `ProductDetector.scoreContainers`: map, filter by the 0.6 threshold,
sort descending by score. -/
def scoreContainers (containers : List Elem) : List (Candidate ProdMeta) :=
  List.insertionSort scoreGE
    ((containers.map scoreContainer).filter
      (fun c => decide (CONFIDENCE_THRESHOLD ≤ c.score)))

end ProductDetector

/-- One ranked locator option: `{selector, score, matches, isExact}`.
The failed-evaluation branch of the rankers carries only the expression
and the -1 score; its match count and exactness are embedded as 0/false.
The source object calls the match count field `matches`, a reserved word
here, so the embedding uses the data model name `matchCount`. -/
structure RankedSel where
  selector : String
  score : ℚ
  matchCount : ℕ
  isExact : Bool
deriving DecidableEq, Repr

/-- The descending order of `.sort((a, b) => b.score - a.score)` on
ranked locator options. -/
def rankGE (a b : RankedSel) : Prop := b.score ≤ a.score

instance : DecidableRel rankGE :=
  fun a b => inferInstanceAs (Decidable (b.score ≤ a.score))

instance : IsTotal RankedSel rankGE :=
  ⟨fun a b => (le_total b.score a.score).imp (fun h => h) (fun h => h)⟩

instance : IsTrans RankedSel rankGE :=
  ⟨fun _ _ _ h h2 => le_trans h2 h⟩

/-- `(selector.match(/\./g) || []).length`: the count of dots in the
expression. -/
def countDots (sel : String) : ℕ :=
  sel.toList.countP (fun c => c = '.')

namespace TableDetector

/-- One mapped entry of `TableDetector.rankSelectors`: evaluate the
expression through the tree facade (`none` embeds a thrown
`SelectorError`, scored -1); otherwise accumulate exactness, brevity,
match-count, id and class-count bonuses. -/
def scoreSelector (evalq : String → Option (List Elem))
    (targetElement : Elem) (sel : String) : RankedSel :=
  match evalq sel with
  | none => { selector := sel, score := -1, matchCount := 0, isExact := false }
  | some elements =>
    let matchCount := elements.length
    let isExact := elements.head? == some targetElement
    let score : ℚ :=
      (if isExact then 2 else 0) +
      ((100 : ℚ) - sel.length) / 100 +
      max 0 ((5 : ℚ) - matchCount) / 5 +
      (if sel.startsWith "#" then 1 else 0) +
      (if strContains sel "." && !(strContains sel "#") then
        (if 1 ≤ countDots sel ∧ countDots sel ≤ 3 then 0.5 else 0)
       else 0)
    { selector := sel, score := score, matchCount := matchCount, isExact := isExact }

/-- `TableDetector.rankSelectors`: score each expression, drop scores
≤ 0, sort descending, keep the top 5. -/
def rankSelectors (evalq : String → Option (List Elem))
    (selectors : List String) (targetElement : Elem) : List RankedSel :=
  (List.insertionSort rankGE
    ((selectors.map (scoreSelector evalq targetElement)).filter
      (fun s => decide (0 < s.score)))).take 5

end TableDetector

namespace ProductDetector

/-- One mapped entry of `ProductDetector.rankProductSelectors`: a thrown
evaluation is scored -1; a successful one accumulates exactness, brevity,
banded match-count, id, class-count, contextual and attribute bonuses,
clamped below at 0. -/
def scoreProductSelector (evalq : String → Option (List Elem))
    (targetElement : Elem) (sel : String) : RankedSel :=
  match evalq sel with
  | none => { selector := sel, score := -1, matchCount := 0, isExact := false }
  | some elements =>
    let matchCount := elements.length
    let isExact := elements.head? == some targetElement
    let score : ℚ :=
      (if isExact then 3 else 0) +
      ((150 : ℚ) - sel.length) / 150 +
      (if matchCount = 1 then 2
       else if matchCount ≤ 3 then 1.5
       else if matchCount ≤ 10 then 1
       else max 0 (((20 : ℚ) - matchCount) / 20)) +
      (if sel.startsWith "#" then 2 else 0) +
      (if strContains sel "." && !(strContains sel "#") then
        (if countDots sel = 1 then 1.2
         else if countDots sel = 2 then 1.5
         else if countDots sel = 3 then 1.0
         else 0.5)
       else 0) +
      (if strContains sel " > " then 0.8 else 0) +
      (if strContains sel "[" then 0.5 else 0)
    { selector := sel, score := max 0 score, matchCount := matchCount, isExact := isExact }

/-- `ProductDetector.rankProductSelectors`: score each expression, drop
scores ≤ 0, sort descending, keep the top 5. -/
def rankProductSelectors (evalq : String → Option (List Elem))
    (selectors : List String) (targetElement : Elem) : List RankedSel :=
  (List.insertionSort rankGE
    ((selectors.map (scoreProductSelector evalq targetElement)).filter
      (fun s => decide (0 < s.score)))).take 5

end ProductDetector

namespace DOMScanner

/-- A flat extraction record: field name to string value. -/
abbrev ScanRecord : Type := List (String × String)

/-- The value one detector returns to `DOMScanner.autoDetect`:
`{type, data, confidence}`. The per-entry payload carries no node handle
here; only the record list and its length are consumed downstream. -/
structure DetectResult where
  type : String
  data : List ScanRecord
  confidence : ℚ
deriving DecidableEq

/-- The reduction step of `DOMScanner.autoDetect`: a failed detector
(`none`, its exception caught) keeps the incumbent; a successful one
replaces it when it is the first success or strictly longer. A JS array
is truthy even when empty, so the `!current.data` guard never rejects a
successful result. -/
def autoReduceStep (best current : Option DetectResult) : Option DetectResult :=
  match current with
  | none => best
  | some c =>
    match best with
    | none => some c
    | some b => if b.data.length < c.data.length then some c else some b

/-- `DOMScanner.autoDetect`: fold the three caught detector outcomes
(tables, lists, products — the latter two detectors are declared by the
scanner but their bodies are not under src/, so their outcomes enter as
inputs) and keep the most promising result. -/
def autoDetect (tablesOutcome listsOutcome productsOutcome :
    Option DetectResult) : Option DetectResult :=
  [tablesOutcome, listsOutcome, productsOutcome].foldl autoReduceStep none

/-- One node against the simple locator forms the modelled facade
evaluates: `#id`, `.class`, or a bare tag name. -/
def matchesSimpleSel (sel : String) (e : Elem) : Bool :=
  if sel.startsWith "#" then e.id = (sel.drop 1)
  else if sel.startsWith "." then e.classList.contains (sel.drop 1)
  else e.tagName.toLower = sel.toLower

/-- The tree facade's `document.querySelectorAll` for the simple locator
forms: every node of the document whose shape matches. -/
def queryAllModel (doc : Elem) (sel : String) : List Elem :=
  (doc :: doc.descendants).filter (matchesSimpleSel sel)

/-- Modelled from the spec: `DOMScanner.extractWithSelectors` is invoked
by `DOMScanner.scrape` for `custom` mode but its body is not under src/.
Per the spec, custom mode "evaluates an explicit locator list directly,
bypassing Finders", a locator that matches nothing contributes no
records, and absent fields are omitted rather than stored empty; each
matched node yields one record carrying its trimmed text. -/
def extractWithSelectors (doc : Elem) (selectors : List String) :
    List ScanRecord :=
  selectors.flatMap (fun sel =>
    (queryAllModel doc sel).map (fun e =>
      ([("text", e.textContent.trim)] : List (String × String))))

/-- The `data` payload of a `DOMScanner.scrape` response: the auto path
returns a detector result, the custom path a record list, other paths are
not exercised by the claims (their extractors' bodies are not under
src/). -/
inductive ScrapeData where
  | fromDetect (r : Option DetectResult)
  | fromRecords (records : List ScanRecord)
  | nullData
deriving DecidableEq

/-- The configuration a scrape request carries to the scanner. -/
structure ScanConfig where
  mode : String
  selectors : List String := []

/-- `DOMScanner.scrape`: dispatch on `config.mode`; a thrown extraction
surfaces as `{error}` (`Except.error`), a successful one as `{data}`.
The three detector outcomes the auto path folds are passed through (their
producers are not all under src/); the `table`/`list`/`products` branches
call extractors whose bodies are likewise not under src/ and are embedded
as the untouched `null` result. -/
def scrape (doc : Elem)
    (tablesOutcome listsOutcome productsOutcome : Option DetectResult)
    (config : ScanConfig) : Except String ScrapeData :=
  if config.mode = "auto" then
    .ok (.fromDetect (autoDetect tablesOutcome listsOutcome productsOutcome))
  else if config.mode = "custom" then
    .ok (.fromRecords (extractWithSelectors doc config.selectors))
  else
    .ok .nullData

end DOMScanner

namespace ScrapingEngine

/-- One post-processed data row: field name to numeric value (the inline
sort comparator subtracts field values, so values are embedded as
integers). -/
abbrev Row : Type := List (String × Int)

/-- One declarative post-processing step `{name, args}`. The positional
arguments are embedded as the fields each recognised processor consumes:
`sort` reads a key, `filter` a predicate; JSON serialization drops
function-valued arguments. -/
structure Processor where
  name : String
  key : String := ""
  pred : Row → Bool := fun _ => true

/-- The request configuration the engine serializes into its cache key. -/
structure Config where
  mode : String := ""
  selectors : Option (List String) := none
  processors : Option (List Processor) := none

/-- The canonical rendering of a configuration, embedding
`JSON.stringify(config)`: a fixed field order, function-valued processor
arguments dropped as JSON does. -/
def serializeConfig (config : Config) : String :=
  "mode=" ++ config.mode ++
  ";selectors=" ++ String.intercalate "," (config.selectors.getD []) ++
  ";processors=" ++ String.intercalate ","
    ((config.processors.getD []).map (fun p => p.name ++ ":" ++ p.key))

/-- The cache key `` `${tabId}:${JSON.stringify(config)}` ``. -/
def cacheKey (tabId : ℤ) (config : Config) : String :=
  toString tabId ++ ":" ++ serializeConfig config

/-- One cache entry `{data, timestamp}`. -/
structure CacheEntry where
  data : List Row
  timestamp : ℤ

/-- The engine's mutable state: the request cache (`Map.set` embedded as
prepending, `Map.get` as the most recent binding) and the worker pool's
busy flags. -/
structure EngineState where
  cache : List (String × CacheEntry)
  workerPool : List Bool

/-- The 30,000 ms cache TTL of `ScrapingEngine.extract`. -/
def CACHE_TTL : ℤ := 30000

/-- `r[key]` as the inline sort comparator reads it, absent fields
defaulting to 0. -/
def getNum (r : Row) (key : String) : Int :=
  (r.lookup key).getD 0

/-- The ascending order `arr.sort((a, b) => a[key] - b[key])`
establishes. -/
def rowLE (key : String) (a b : Row) : Prop :=
  getNum a key ≤ getNum b key

instance (key : String) : DecidableRel (rowLE key) :=
  fun a b => inferInstanceAs (Decidable (getNum a key ≤ getNum b key))

/-- One step of `ScrapingEngine.processInline` restricted to the names
the caching and worker claims exercise: the table's three own entries
dispatch to their processors, and a name that is no property of the
dispatch object is skipped. The `deduplicate` entry spreads a `Set` of
the record objects; `Set` membership is by object reference and every
record in the engine's arrays is a distinct freshly deserialized object,
so the spread returns the array unchanged. The source's
`processors[processor.name]` guard also finds members inherited from
`Object.prototype`; that full property lookup is embedded separately by
`ScrapingEngine.processStep`, and `processInline_agrees_plain` relates
the two on names that stay off the prototype chain. -/
def applyProcessor (result : List Row) (processor : Processor) : List Row :=
  if processor.name = "deduplicate" then result
  else if processor.name = "sort" then
    List.insertionSort (rowLE processor.key) result
  else if processor.name = "filter" then result.filter processor.pred
  else result

/-- `ScrapingEngine.processInline`: left-to-right application of the
configured processors, or the data unchanged when none are configured
(see `applyProcessor` for this embedding's scope). -/
def processInline (data : List Row) (config : Config) : List Row :=
  match config.processors with
  | none => data
  | some processors => processors.foldl applyProcessor data

/-- `workerPool.find(w => !w.busy)`: the index of the first free
worker. -/
def firstFreeWorker (pool : List Bool) : Option ℕ :=
  pool.findIdx? (fun busy => !busy)

/-- `ScrapingEngine.processInWorker`: with no free worker, fall back to
inline processing on the caller's thread; otherwise mark the worker busy,
run the job (`workerRun` embeds the posted message's asynchronous
outcome: `onmessage` resolves, `onerror` rejects), clear the busy flag on
either exit path, and return the job's outcome as is — a rejection is
passed through, not replaced by inline processing. -/
def processInWorker (pool : List Bool)
    (workerRun : List Row → Config → Except String (List Row))
    (data : List Row) (config : Config) :
    Except String (List Row) × List Bool :=
  match firstFreeWorker pool with
  | none => (.ok (processInline data config), pool)
  | some i =>
    let poolBusy := pool.set i true
    let outcome := workerRun data config
    let poolFreed := poolBusy.set i false
    (outcome, poolFreed)

/-- The miss path of `ScrapingEngine.extract` (the body of its `try`
block): await the content-script fetch, post-process, store the success
under the key with the current timestamp; a fetch or worker rejection is
rethrown with the cache untouched. -/
def extractMiss (st : EngineState) (key : String) (config : Config) (now : ℤ)
    (fetched : Except String (List Row))
    (workerRun : List Row → Config → Except String (List Row)) :
    Except String (List Row) × EngineState × Bool :=
  match fetched with
  | .error e => (.error e, st, true)
  | .ok data =>
    match processInWorker st.workerPool workerRun data config with
    | (.error e, poolAfter) =>
      (.error e, { st with workerPool := poolAfter }, true)
    | (.ok processedData, poolAfter) =>
      (.ok processedData,
       { cache := (key, { data := processedData, timestamp := now }) :: st.cache
         workerPool := poolAfter },
       true)

/-- `ScrapingEngine.extract` in one logical step. `fetched` embeds the
awaited `extractViaContentScript` response (rejection = `error`); `now`
both timestamps the check and the store. Returns the response, the new
engine state, and whether the extraction pipeline ran (`false` exactly on
a fresh cache hit, which returns the cached data with no further work). -/
def extract (st : EngineState) (tabId : ℤ) (config : Config) (now : ℤ)
    (fetched : Except String (List Row))
    (workerRun : List Row → Config → Except String (List Row)) :
    Except String (List Row) × EngineState × Bool :=
  let key := cacheKey tabId config
  match st.cache.lookup key with
  | some cached =>
    if now - cached.timestamp < CACHE_TTL then (.ok cached.data, st, false)
    else extractMiss st key config now fetched workerRun
  | none => extractMiss st key config now fetched workerRun

/-- The three own keys of the `processors` object literal. -/
def ownNames : List String := ["deduplicate", "sort", "filter"]

/-- The members every object literal inherits from `Object.prototype`,
all of which the guard `if (processors[processor.name])` finds truthy:
eleven function-valued members plus the `__proto__` accessor (whose
value, `Object.prototype`, is a non-callable object). -/
def objectProtoMembers : List String :=
  ["constructor", "hasOwnProperty", "isPrototypeOf", "propertyIsEnumerable",
   "toLocaleString", "toString", "valueOf", "__defineGetter__",
   "__defineSetter__", "__lookupGetter__", "__lookupSetter__", "__proto__"]

/-- A runtime value the inline pipeline's `result` variable can hold.
It starts as the record array; dispatching a prototype-inherited member
can turn it into a string (`toString`/`toLocaleString`), a boolean
(`hasOwnProperty` and kin), the dispatch object itself (`valueOf`), a
character array (`deduplicate` of a string), a primitive wrapper object
(`constructor`, i.e. `Object(primitive)`), a fresh empty object
(`Object(undefined)`), or `undefined` (`__lookupGetter__`). -/
inductive JsValue where
  | rows (records : List Row)
  | str (s : String)
  | jsBool (b : Bool)
  | strList (items : List String)
  | dispatchObject
  | emptyObject
  | wrapped (v : JsValue)
  | undef
deriving DecidableEq, Repr

/-- JS `ToPropertyKey`/`ToString` of the current result, as
`hasOwnProperty(result)` and kin coerce their argument: an array joins
its elements with commas and each record object renders as
`[object Object]`, plain objects render as `[object Object]`, a wrapper
renders as its primitive, `undefined` as `"undefined"`. -/
def toPropertyKey : JsValue → String
  | .rows records =>
    String.intercalate "," (records.map (fun _ => "[object Object]"))
  | .str s => s
  | .jsBool b => if b then "true" else "false"
  | .strList items => String.intercalate "," items
  | .dispatchObject => "[object Object]"
  | .emptyObject => "[object Object]"
  | .wrapped v => toPropertyKey v
  | .undef => "undefined"

/-- `Object(x)`, as invoking the inherited `constructor` does: object
arguments pass through, primitives are boxed, `undefined` yields a fresh
empty object. -/
def objectConstructorOn : JsValue → JsValue
  | .rows records => .rows records
  | .strList items => .strList items
  | .dispatchObject => .dispatchObject
  | .emptyObject => .emptyObject
  | .wrapped v => .wrapped v
  | .str s => .wrapped (.str s)
  | .jsBool b => .wrapped (.jsBool b)
  | .undef => .emptyObject

/-- `[...new Set(x)]`, the `deduplicate` entry: a record array passes
through unchanged (`Set` membership is by reference and the records are
distinct deserialized objects); a string or `String` wrapper iterates to
its characters, deduplicated by value as primitives are; `undefined`
yields the empty `Set`, hence an empty array; booleans and plain objects
are not iterable and throw. -/
def jsSetSpread : JsValue → Except String JsValue
  | .rows records => .ok (.rows records)
  | .str s => .ok (.strList (jsSetDedup (s.data.map (fun c => String.mk [c]))))
  | .wrapped (.str s) =>
    .ok (.strList (jsSetDedup (s.data.map (fun c => String.mk [c]))))
  | .strList items => .ok (.strList (jsSetDedup items))
  | .undef => .ok (.rows [])
  | _ => .error "TypeError: value is not iterable"

/-- `arr.sort((a, b) => a[key] - b[key])`, the `sort` entry: a record
array sorts stably ascending by the key (an absent key compares as a
tie, as the comparator's `NaN` is treated as 0); a character array's
string elements also index to `undefined` under the key, leaving the
order unchanged; every non-array value has no `sort` method and
throws. -/
def jsSortStep : JsValue → String → Except String JsValue
  | .rows records, key => .ok (.rows (List.insertionSort (rowLE key) records))
  | .strList items, _ => .ok (.strList items)
  | _, _ => .error "TypeError: result.sort is not a function"

/-- `arr.filter(predicate)`, the `filter` entry: a record array filters
by the embedded predicate; a character array (reachable only through
exotic chains the embedded record predicate cannot speak about) passes
through; every non-array value has no `filter` method and throws. -/
def jsFilterStep : JsValue → (Row → Bool) → Except String JsValue
  | .rows records, pred => .ok (.rows (records.filter pred))
  | .strList items, _ => .ok (.strList items)
  | _, _ => .error "TypeError: result.filter is not a function"

/-- One step of the source's inline loop, embedding the full property
lookup `processors[processor.name]` with its prototype chain. The three
own entries dispatch to their processors. A name naming an inherited
`Object.prototype` member is truthy, so the guard passes and the member
is invoked with `this` bound to the dispatch object:
`toString`/`toLocaleString` yield `"[object Object]"`, `valueOf` yields
the dispatch object itself, `constructor` is `Object(result)`,
`hasOwnProperty`/`propertyIsEnumerable` test the coerced result against
the own keys, `isPrototypeOf` is false (the dispatch object sits on no
result's prototype chain), the accessor-defining members throw because a
declarative argument list carries no function, and the accessor lookups
yield `undefined` (no reachable result coerces to the key `__proto__`,
the one accessor on the chain). `__proto__` itself is a truthy
non-callable object, so invoking it throws. Any other name is no
property at all, the guard sees `undefined`, and the step is skipped. -/
def processStep (v : JsValue) (p : Processor) : Except String JsValue :=
  if p.name = "deduplicate" then jsSetSpread v
  else if p.name = "sort" then jsSortStep v p.key
  else if p.name = "filter" then jsFilterStep v p.pred
  else if p.name = "toString" ∨ p.name = "toLocaleString" then
    .ok (.str "[object Object]")
  else if p.name = "valueOf" then .ok .dispatchObject
  else if p.name = "constructor" then .ok (objectConstructorOn v)
  else if p.name = "hasOwnProperty" ∨ p.name = "propertyIsEnumerable" then
    .ok (.jsBool (decide (toPropertyKey v ∈ ownNames)))
  else if p.name = "isPrototypeOf" then .ok (.jsBool false)
  else if p.name = "__defineGetter__" ∨ p.name = "__defineSetter__" then
    .error "TypeError: Getter must be a function"
  else if p.name = "__lookupGetter__" ∨ p.name = "__lookupSetter__" then
    .ok .undef
  else if p.name = "__proto__" then
    .error "TypeError: processors.__proto__ is not a function"
  else .ok v

/-- The inline loop over the processor list: each step feeds the next,
and an uncaught exception aborts the remainder and propagates. -/
def runProcessors : JsValue → List Processor → Except String JsValue
  | v, [] => .ok v
  | v, p :: ps =>
    match processStep v p with
    | .error e => .error e
    | .ok v2 => runProcessors v2 ps

/-- `ScrapingEngine.processInline` under the full dynamic dispatch
semantics: the fetched record array threaded through the configured
processors, or returned unchanged when none are configured. -/
def processInlineJs (data : List Row) (config : Config) :
    Except String JsValue :=
  match config.processors with
  | none => .ok (.rows data)
  | some processors => runProcessors (.rows data) processors

end ScrapingEngine

lemma mem_of_mem_insertionSort {α : Type} {r : α → α → Prop} [DecidableRel r]
    {c : α} {l : List α} (h : c ∈ List.insertionSort r l) : c ∈ l :=
  (List.perm_insertionSort r l).subset h

/-- C1. For every input pool, every candidate a finder's scoring pass
returns carries a score at least its kind's threshold (Tabular 0.6,
List 0.5, Product 0.6), and each returned list is sorted descending by
score. -/
theorem c1_scoring_threshold_and_sorted
    (tables lists containers : List Elem) :
    (∀ c ∈ TableDetector.scoreTables tables,
        TableDetector.CONFIDENCE_THRESHOLD ≤ c.score) ∧
    (TableDetector.scoreTables tables).Sorted scoreGE ∧
    (∀ c ∈ ListDetector.scoreLists lists,
        ListDetector.CONFIDENCE_THRESHOLD ≤ c.score) ∧
    (ListDetector.scoreLists lists).Sorted scoreGE ∧
    (∀ c ∈ ProductDetector.scoreContainers containers,
        ProductDetector.CONFIDENCE_THRESHOLD ≤ c.score) ∧
    (ProductDetector.scoreContainers containers).Sorted scoreGE := by
  refine ⟨?_, ?_, ?_, ?_, ?_, ?_⟩
  · intro c hc
    have hmem := mem_of_mem_insertionSort hc
    exact of_decide_eq_true (List.mem_filter.mp hmem).2
  · exact List.sorted_insertionSort scoreGE _
  · intro c hc
    have hmem := mem_of_mem_insertionSort hc
    exact of_decide_eq_true (List.mem_filter.mp hmem).2
  · exact List.sorted_insertionSort scoreGE _
  · intro c hc
    have hmem := mem_of_mem_insertionSort hc
    exact of_decide_eq_true (List.mem_filter.mp hmem).2
  · exact List.sorted_insertionSort scoreGE _

lemma TableDetector.getDivStructureScore_nonneg (div : Elem) :
    0 ≤ TableDetector.getDivStructureScore div := by
  unfold TableDetector.getDivStructureScore
  split
  · exact le_refl 0
  · split
    · exact le_refl 0
    · exact div_nonneg (Nat.cast_nonneg _) (Nat.cast_nonneg _)

lemma TableDetector.getStructureScore_nonneg (table : Elem) :
    0 ≤ TableDetector.getStructureScore table := by
  unfold TableDetector.getStructureScore
  split
  · exact TableDetector.getDivStructureScore_nonneg table
  · split
    · exact le_refl 0
    · split
      · exact le_refl 0
      · exact div_nonneg (Nat.cast_nonneg _) (Nat.cast_nonneg _)

lemma TableDetector.tableSemanticScore_nonneg (table : Elem) :
    0 ≤ TableDetector.getSemanticScore table := by
  unfold TableDetector.getSemanticScore
  refine le_min (by norm_num) ?_
  positivity

lemma TableDetector.tableRawScore_nonneg (table : Elem) :
    0 ≤ TableDetector.tableRawScore table := by
  unfold TableDetector.tableRawScore
  have h1 : 0 ≤ TableDetector.getStructureScore table * 0.15 :=
    mul_nonneg (TableDetector.getStructureScore_nonneg table) (by norm_num)
  have h2 := TableDetector.tableSemanticScore_nonneg table
  repeat' apply add_nonneg
  all_goals first
    | exact h1
    | exact h2
    | (split <;> norm_num)

lemma ListDetector.getConsistencyScore_nonneg (list : Elem) :
    0 ≤ ListDetector.getConsistencyScore list := by
  unfold ListDetector.getConsistencyScore
  split
  · exact le_refl 0
  · split
    · exact le_refl 0
    · exact div_nonneg (Nat.cast_nonneg _) (Nat.cast_nonneg _)

lemma ListDetector.listSemanticScore_nonneg (list : Elem) :
    0 ≤ ListDetector.getSemanticScore list := by
  unfold ListDetector.getSemanticScore
  refine le_min (by norm_num) ?_
  positivity

lemma ListDetector.listRawScore_nonneg (list : Elem) :
    0 ≤ ListDetector.listRawScore list := by
  unfold ListDetector.listRawScore
  have h1 : 0 ≤ ListDetector.getConsistencyScore list * 0.2 :=
    mul_nonneg (ListDetector.getConsistencyScore_nonneg list) (by norm_num)
  have h2 := ListDetector.listSemanticScore_nonneg list
  repeat' apply add_nonneg
  all_goals first
    | exact h1
    | exact h2
    | (split <;> norm_num)

lemma ProductDetector.productSemanticScore_nonneg (e : Elem) :
    0 ≤ ProductDetector.getSemanticScore e := by
  unfold ProductDetector.getSemanticScore
  refine le_min (by norm_num) ?_
  have : (0 : ℚ) ≤ if strContains e.id.toLower "product" ||
      strContains e.id.toLower "catalog" = true then 0.1 else 0 := by
    split <;> norm_num
  positivity

lemma ProductDetector.patternScores_nonneg (children : List Elem) :
    0 ≤ (ProductDetector.analyzePattern children).consistentStructure ∧
    0 ≤ (ProductDetector.analyzePattern children).consistentClasses ∧
    0 ≤ (ProductDetector.analyzePattern children).consistentSize := by
  unfold ProductDetector.analyzePattern
  refine ⟨?_, ?_, ?_⟩ <;> (dsimp only; split <;> norm_num)

lemma ProductDetector.containerRawScore_nonneg (container : Elem) :
    0 ≤ ProductDetector.containerRawScore container := by
  unfold ProductDetector.containerRawScore
  obtain ⟨hp1, hp2, hp3⟩ :=
    ProductDetector.patternScores_nonneg container.children
  have hratio : 0 ≤ (ProductDetector.countProductChildren container : ℚ) /
      ((max 1 container.children.length : ℕ) : ℚ) * 0.3 :=
    mul_nonneg (div_nonneg (Nat.cast_nonneg _) (Nat.cast_nonneg _)) (by norm_num)
  have hpat : 0 ≤ ((ProductDetector.analyzePattern container.children).consistentStructure +
      (ProductDetector.analyzePattern container.children).consistentClasses +
      (ProductDetector.analyzePattern container.children).consistentSize) / 3 * 0.2 := by
    have := add_nonneg (add_nonneg hp1 hp2) hp3
    positivity
  have hsem := ProductDetector.productSemanticScore_nonneg container
  repeat' apply add_nonneg
  all_goals first
    | exact hratio
    | exact hpat
    | exact hsem
    | (split <;> norm_num)

/-- C9 (amended). Every candidate a scoring pass returns has
`score ∈ [0, 1]` (the additive sub-scores are non-negative and the total
is clamped to 1), and its `confidence` — the unclamped additive total —
is non-negative, but is not clamped to 1. -/
theorem c9_score_bounds (tables lists containers : List Elem) :
    (∀ c ∈ TableDetector.scoreTables tables,
        0 ≤ c.score ∧ c.score ≤ 1 ∧ 0 ≤ c.confidence) ∧
    (∀ c ∈ ListDetector.scoreLists lists,
        0 ≤ c.score ∧ c.score ≤ 1 ∧ 0 ≤ c.confidence) ∧
    (∀ c ∈ ProductDetector.scoreContainers containers,
        0 ≤ c.score ∧ c.score ≤ 1 ∧ 0 ≤ c.confidence) := by
  refine ⟨?_, ?_, ?_⟩
  · intro c hc
    obtain ⟨t, -, rfl⟩ := List.mem_map.mp
      (List.mem_filter.mp (mem_of_mem_insertionSort hc)).1
    exact ⟨le_min (by norm_num) (TableDetector.tableRawScore_nonneg t),
      min_le_left _ _, TableDetector.tableRawScore_nonneg t⟩
  · intro c hc
    obtain ⟨t, -, rfl⟩ := List.mem_map.mp
      (List.mem_filter.mp (mem_of_mem_insertionSort hc)).1
    exact ⟨le_min (by norm_num) (ListDetector.listRawScore_nonneg t),
      min_le_left _ _, ListDetector.listRawScore_nonneg t⟩
  · intro c hc
    obtain ⟨t, -, rfl⟩ := List.mem_map.mp
      (List.mem_filter.mp (mem_of_mem_insertionSort hc)).1
    exact ⟨le_min (by norm_num) (ProductDetector.containerRawScore_nonneg t),
      min_le_left _ _, ProductDetector.containerRawScore_nonneg t⟩

/-- A table cell node. -/
def cellE : Elem := .mk { tagName := "td" } []

/-- A table row of three cells. -/
def rowOf3 : Elem := .mk { tagName := "tr" } [cellE, cellE, cellE]

/-- A visible native table of five consistent three-cell rows whose class
names and text hit every semantic keyword: every additive signal family
fires, so its raw confidence exceeds 1. -/
def exTable125 : Elem := .mk
  { tagName := "table"
    className := "table grid data"
    textContent := "price total quantity description name"
    innerHTML := "price total quantity description name"
    rectWidth := 200
    rectHeight := 100 }
  (List.replicate 5 rowOf3)

/-- C9 counterexample. `TableDetector.scoreTables` returns a candidate
whose `confidence` field is 5/4: the claim that `confidence` lies in
`[0, 1]` fails (only `score` is clamped). -/
theorem c9_counterexample :
    (TableDetector.scoreTables [exTable125]).map (fun c => c.confidence) =
      [5/4] ∧ (1 : ℚ) < 5/4 := by
  constructor
  · set_option maxRecDepth 10000 in with_unfolding_all decide
  · norm_num

/-- C8 (amended). For a native table (resp. list container) with first
row (item) `first` and later siblings `rest`, the structural-consistency
sub-score equals the number of matches among the first `min(9, n-1)`
later siblings — cell count equal to the first row's for tables, tag and
class equal to the first item's for lists — divided by `min(10, n-1)`:
one fewer sibling is examined than the divisor counts once `n ≥ 11`, so
an all-consistent container scores 1.0 exactly when `n ≤ 10`. -/
theorem c8_consistency_fraction :
    (∀ (t first : Elem) (rest : List Elem), t.rows = first :: rest →
      rest ≠ [] → t.tagName.toLower = "table" →
      TableDetector.getStructureScore t =
        ((rest.take (min 9 rest.length)).countP
            (fun r => r.cells.length = first.cells.length) : ℚ) /
          ((min 10 rest.length : ℕ) : ℚ) ∧
      ((∀ r ∈ t.rows, r.cells.length = first.cells.length) →
        (TableDetector.getStructureScore t = 1 ↔ t.rows.length ≤ 10))) ∧
    (∀ (l first : Elem) (rest : List Elem), l.children = first :: rest →
      rest ≠ [] →
      ListDetector.getConsistencyScore l =
        ((rest.take (min 9 rest.length)).countP
            (fun c => c.tagName = first.tagName ∧
              c.className = first.className) : ℚ) /
          ((min 10 rest.length : ℕ) : ℚ) ∧
      ((∀ c ∈ l.children, c.tagName = first.tagName ∧
          c.className = first.className) →
        (ListDetector.getConsistencyScore l = 1 ↔ l.children.length ≤ 10))) := by
  constructor
  · intro t first rest hrows hne htag
    have hlen : t.rows.length = rest.length + 1 := by rw [hrows]; simp
    have hrl : 1 ≤ rest.length := by
      cases rest with
      | nil => exact absurd rfl hne
      | cons a as => simp
    have hval : TableDetector.getStructureScore t =
        ((rest.take (min 9 rest.length)).countP
            (fun r => r.cells.length = first.cells.length) : ℚ) /
          ((min 10 rest.length : ℕ) : ℚ) := by
      unfold TableDetector.getStructureScore
      rw [if_neg (by simp [htag]), if_neg (by omega)]
      rw [hrows]
      have h9 : min 10 t.rows.length - 1 = min 9 rest.length := by omega
      have h10 : (first :: rest).length - 1 = rest.length := by simp
      simp only [hrows] at h9
      rw [h9, h10]
    refine ⟨hval, fun hall => ?_⟩
    rw [hval]
    have hcount : (rest.take (min 9 rest.length)).countP
        (fun r => r.cells.length = first.cells.length) =
        min 9 rest.length := by
      rw [List.countP_eq_length.mpr, List.length_take]
      · omega
      · intro r hr
        have : r ∈ t.rows := by
          rw [hrows]
          exact List.mem_cons_of_mem first (List.mem_of_mem_take hr)
        simpa using hall r this
    rw [hcount]
    have hden : ((min 10 rest.length : ℕ) : ℚ) ≠ 0 := by
      simp only [ne_eq, Nat.cast_eq_zero]
      omega
    rw [div_eq_one_iff_eq hden, Nat.cast_inj, hlen]
    omega
  · intro l first rest hch hne
    have hlen : l.children.length = rest.length + 1 := by rw [hch]; simp
    have hrl : 1 ≤ rest.length := by
      cases rest with
      | nil => exact absurd rfl hne
      | cons a as => simp
    have hval : ListDetector.getConsistencyScore l =
        ((rest.take (min 9 rest.length)).countP
            (fun c => c.tagName = first.tagName ∧
              c.className = first.className) : ℚ) /
          ((min 10 rest.length : ℕ) : ℚ) := by
      unfold ListDetector.getConsistencyScore
      rw [if_neg (by omega)]
      rw [hch]
      have h9 : min 10 l.children.length - 1 = min 9 rest.length := by omega
      have h10 : (first :: rest).length - 1 = rest.length := by simp
      simp only [hch] at h9
      rw [h9, h10]
    refine ⟨hval, fun hall => ?_⟩
    rw [hval]
    have hcount : (rest.take (min 9 rest.length)).countP
        (fun c => c.tagName = first.tagName ∧
          c.className = first.className) = min 9 rest.length := by
      rw [List.countP_eq_length.mpr, List.length_take]
      · omega
      · intro c hc
        have : c ∈ l.children := by
          rw [hch]
          exact List.mem_cons_of_mem first (List.mem_of_mem_take hc)
        simpa using hall c this
    rw [hcount]
    have hden : ((min 10 rest.length : ℕ) : ℚ) ≠ 0 := by
      simp only [ne_eq, Nat.cast_eq_zero]
      omega
    rw [div_eq_one_iff_eq hden, Nat.cast_inj, hlen]
    omega

/-- A table row of two cells. -/
def rowOf2 : Elem := .mk { tagName := "tr" } [cellE, cellE]

/-- A native table of eleven structurally identical two-cell rows. -/
def exTab11 : Elem := .mk { tagName := "table" } (List.replicate 11 rowOf2)

/-- C8 counterexample. A native table whose eleven rows all have two
cells — the claimed fraction over the first `min(10, n-1)` siblings would
be 1.0 — scores 9/10: the loop examines only nine siblings while
dividing by ten. -/
theorem c8_counterexample :
    exTab11.rows.map (fun r => r.cells.length) = List.replicate 11 2 ∧
    TableDetector.getStructureScore exTab11 = 9/10 ∧ (9 : ℚ)/10 < 1 := by
  refine ⟨by decide, ?_, by norm_num⟩
  set_option maxRecDepth 10000 in with_unfolding_all decide

/-- An image node. -/
def imgE : Elem := .mk { tagName := "img" } []

/-- A heading node. -/
def headingE : Elem := .mk { tagName := "h2", textContent := "Widget Pro" } []

/-- An item holding an image, a `$`-prefixed price in its text, and a
heading. -/
def exProductItem : Elem := .mk
  { tagName := "div", textContent := "Widget Pro $9.99" } [imgE, headingE]

/-- An actionable control node. -/
def buttonE : Elem := .mk { tagName := "button", textContent := "Add to cart" } []

/-- A title-like node (class contains "title"). -/
def titleDivE : Elem := .mk { tagName := "div", className := "product-title" } []

/-- An item with no price pattern and no image, but an actionable
control, a title-like node and a bounding box over 100×50. -/
def exNoPriceItem : Elem := .mk
  { tagName := "div", textContent := "Add to cart Widget"
    rectWidth := 200, rectHeight := 100 } [buttonE, titleDivE]

/-- C7 (amended). The product rubric sums 3 for a price pattern, 2 for a
contained image, 1 for an actionable control, 1 for a title-like heading
and 1 for a bounding box over 100×50, accepting exactly at total ≥ 3; an
item with an image, `$`-price and heading is accepted; but an element
with neither price nor image is rejected only when it lacks one of
control, heading or the size bonus — with all three it totals exactly 3
and is accepted. -/
theorem c7_product_rubric :
    (∀ e : Elem, ProductDetector.isProductLike e =
      decide (3 ≤ (if ProductDetector.containsPrice e.textContent then 3 else 0) +
        (if ProductDetector.hasImageIn e then 2 else 0) +
        (if ProductDetector.hasButtonIn e then 1 else 0) +
        (if ProductDetector.hasTitleIn e then 1 else 0) +
        (if 100 < e.rectWidth ∧ 50 < e.rectHeight then 1 else 0))) ∧
    (∀ e : Elem, ProductDetector.containsPrice e.textContent = false →
      ProductDetector.hasImageIn e = false →
      (ProductDetector.isProductLike e = true ↔
        (ProductDetector.hasButtonIn e = true ∧
          ProductDetector.hasTitleIn e = true ∧
          100 < e.rectWidth ∧ 50 < e.rectHeight))) ∧
    ProductDetector.isProductLike exProductItem = true := by
  refine ⟨fun e => rfl, ?_, ?_⟩
  · intro e hp hi
    simp only [ProductDetector.isProductLike, ProductDetector.productLikeScore,
      hp, hi, Bool.false_eq_true, if_false, zero_add, decide_eq_true_eq]
    by_cases hb : ProductDetector.hasButtonIn e = true <;>
      by_cases ht : ProductDetector.hasTitleIn e = true <;>
      by_cases hs : 100 < e.rectWidth ∧ 50 < e.rectHeight <;>
      simp [hb, ht, hs]
  · set_option maxRecDepth 10000 in with_unfolding_all decide

/-- C7 counterexample. The rubric accepts an element containing neither
a price pattern nor an image: a button, a title-like node and a large
bounding box already total 3, refuting the claim's rejection example. -/
theorem c7_counterexample :
    ProductDetector.containsPrice exNoPriceItem.textContent = false ∧
    ProductDetector.hasImageIn exNoPriceItem = false ∧
    ProductDetector.isProductLike exNoPriceItem = true := by
  refine ⟨?_, ?_, ?_⟩ <;>
    set_option maxRecDepth 10000 in with_unfolding_all decide

/-- C3. The auto mode folds the caught outcomes of the three finders
(a thrown finder enters as `none` and is tolerated): the fold returns
nothing only when every finder failed, and otherwise returns one of the
successful results, whose record list is at least as long as every
successful finder's. -/
theorem c3_autoDetect_best_of_successes
    (tablesOutcome listsOutcome productsOutcome : Option DOMScanner.DetectResult) :
    (DOMScanner.autoDetect tablesOutcome listsOutcome productsOutcome = none ↔
      tablesOutcome = none ∧ listsOutcome = none ∧ productsOutcome = none) ∧
    (∀ b, DOMScanner.autoDetect tablesOutcome listsOutcome productsOutcome = some b →
      (some b = tablesOutcome ∨ some b = listsOutcome ∨ some b = productsOutcome) ∧
      ∀ s : DOMScanner.DetectResult,
        (some s = tablesOutcome ∨ some s = listsOutcome ∨ some s = productsOutcome) →
        s.data.length ≤ b.data.length) := by
  rcases tablesOutcome with _ | t <;> rcases listsOutcome with _ | l <;>
    rcases productsOutcome with _ | p <;>
    simp only [DOMScanner.autoDetect, List.foldl, DOMScanner.autoReduceStep] <;>
    (try split_ifs) <;>
    (try simp only [DOMScanner.autoReduceStep]) <;>
    (try split_ifs) <;>
    refine ⟨by simp, ?_⟩ <;>
    intro b hb <;>
    (try exact Option.noConfusion hb) <;>
    (try simp only [Option.some.injEq] at hb) <;>
    subst hb <;>
    refine ⟨by simp, ?_⟩ <;>
    intro s hs <;>
    rcases hs with hs | hs | hs <;>
    (try exact Option.noConfusion hs) <;>
    simp only [Option.some.injEq] at hs <;>
    subst hs <;>
    omega

/-- C4. A `custom` scrape request with locator list `["#does-not-exist"]`
against a document with no node of that id returns the successful empty
record list, not an error value. -/
theorem c4_custom_missing_selector_empty
    (doc : Elem)
    (tablesOutcome listsOutcome productsOutcome : Option DOMScanner.DetectResult)
    (h : ∀ e ∈ doc :: doc.descendants, e.id ≠ "does-not-exist") :
    DOMScanner.scrape doc tablesOutcome listsOutcome productsOutcome
      { mode := "custom", selectors := ["#does-not-exist"] } =
      .ok (.fromRecords []) := by
  have hq : DOMScanner.queryAllModel doc "#does-not-exist" = [] := by
    rw [DOMScanner.queryAllModel, List.filter_eq_nil_iff]
    intro e he
    have hstart : ("#does-not-exist".startsWith "#") = true := by
      with_unfolding_all decide
    simp only [DOMScanner.matchesSimpleSel, hstart, if_true]
    simpa using h e he
  simp only [DOMScanner.scrape]
  norm_num
  rw [DOMScanner.extractWithSelectors]
  simp [hq]

/-- A two-node document with ids `main` and `content` only. -/
def exDoc : Elem := .mk { tagName := "body", id := "main" }
  [.mk { tagName := "div", id := "content" } []]

/-- C4 witness: the theorem applied to the concrete two-node document. -/
theorem c4_witness :
    DOMScanner.scrape exDoc none none none
      { mode := "custom", selectors := ["#does-not-exist"] } =
      .ok (.fromRecords []) :=
  c4_custom_missing_selector_empty exDoc none none none (by
    have hd : exDoc.descendants =
        [Elem.mk { tagName := "div", id := "content" } []] := by
      with_unfolding_all rfl
    rw [hd]
    intro e he
    simp only [List.mem_cons, List.mem_singleton, List.not_mem_nil, or_false] at he
    rcases he with rfl | rfl <;> with_unfolding_all decide)

instance {ε α : Type} [DecidableEq ε] [DecidableEq α] :
    DecidableEq (Except ε α) := fun a b =>
  match a, b with
  | .error x, .error y => decidable_of_iff (x = y) (by simp)
  | .ok x, .ok y => decidable_of_iff (x = y) (by simp)
  | .error _, .ok _ => isFalse (fun h => Except.noConfusion h)
  | .ok _, .error _ => isFalse (fun h => Except.noConfusion h)

/-- C5 (amended). Inline fallback happens only when no worker is free;
when a free worker's job fails, `processInWorker` returns the rejection
as is (after clearing the busy flag), and `extract` rethrows it to its
caller instead of retrying inline. -/
theorem c5_worker_failure_propagates (pool : List Bool)
    (workerRun : List ScrapingEngine.Row → ScrapingEngine.Config →
      Except String (List ScrapingEngine.Row))
    (data : List ScrapingEngine.Row) (config : ScrapingEngine.Config) :
    (ScrapingEngine.firstFreeWorker pool = none →
      ScrapingEngine.processInWorker pool workerRun data config =
        (.ok (ScrapingEngine.processInline data config), pool)) ∧
    (∀ i, ScrapingEngine.firstFreeWorker pool = some i →
      ScrapingEngine.processInWorker pool workerRun data config =
        (workerRun data config, (pool.set i true).set i false)) ∧
    (∀ (st : ScrapingEngine.EngineState) (tabId now : ℤ) (msg : String),
      st.cache = [] →
      (ScrapingEngine.processInWorker st.workerPool workerRun data config).1 =
        .error msg →
      (ScrapingEngine.extract st tabId config now (.ok data) workerRun).1 =
        .error msg) := by
  refine ⟨?_, ?_, ?_⟩
  · intro h
    unfold ScrapingEngine.processInWorker
    rw [h]
  · intro i h
    unfold ScrapingEngine.processInWorker
    rw [h]
  · intro st tabId now msg hc hw
    rcases hpw : ScrapingEngine.processInWorker st.workerPool workerRun data config
      with ⟨res, pool2⟩
    rw [hpw] at hw
    simp only at hw
    subst hw
    unfold ScrapingEngine.extract
    rw [hc]
    simp only [List.lookup]
    unfold ScrapingEngine.extractMiss
    dsimp only
    rw [hpw]

/-- A concrete data row. -/
def exRow : ScrapingEngine.Row := [("a", 1)]

/-- A concrete configuration with no processors. -/
def exConfig : ScrapingEngine.Config := {}

/-- An engine state with an empty cache and one free worker. -/
def exState : ScrapingEngine.EngineState := { cache := [], workerPool := [false] }

/-- A worker whose job always fails. -/
def failingRun : List ScrapingEngine.Row → ScrapingEngine.Config →
    Except String (List ScrapingEngine.Row) := fun _ _ => .error "Worker crashed"

/-- C5 counterexample. With a free worker whose job fails, `extract`
returns the worker's error — it does not fall back to the inline result
(which here would have been the unchanged data). -/
theorem c5_counterexample :
    (ScrapingEngine.extract exState 7 exConfig 0 (.ok [exRow]) failingRun).1 =
      .error "Worker crashed" ∧
    ScrapingEngine.processInline [exRow] exConfig = [exRow] ∧
    (ScrapingEngine.extract exState 7 exConfig 0 (.ok [exRow]) failingRun).1 ≠
      .ok (ScrapingEngine.processInline [exRow] exConfig) := by
  refine ⟨?_, rfl, ?_⟩ <;> with_unfolding_all decide

/-- The miss path always reports that the pipeline ran. -/
lemma ScrapingEngine.extractMiss_ran (st : ScrapingEngine.EngineState)
    (key : String) (config : ScrapingEngine.Config) (now : ℤ)
    (fetched : Except String (List ScrapingEngine.Row))
    (workerRun : List ScrapingEngine.Row → ScrapingEngine.Config →
      Except String (List ScrapingEngine.Row)) :
    (ScrapingEngine.extractMiss st key config now fetched workerRun).2.2 = true := by
  unfold ScrapingEngine.extractMiss
  cases fetched with
  | error e => rfl
  | ok data =>
    dsimp only
    rcases h : ScrapingEngine.processInWorker st.workerPool workerRun data config
      with ⟨res, pool2⟩
    cases res <;> rfl

/-- A successful miss returns the processed data and stores it under the
key with the current timestamp. -/
lemma ScrapingEngine.extractMiss_stores (st : ScrapingEngine.EngineState)
    (key : String) (config : ScrapingEngine.Config) (now : ℤ)
    (data processedData : List ScrapingEngine.Row)
    (workerRun : List ScrapingEngine.Row → ScrapingEngine.Config →
      Except String (List ScrapingEngine.Row))
    (hpw : (ScrapingEngine.processInWorker st.workerPool workerRun data config).1 =
      .ok processedData) :
    (ScrapingEngine.extractMiss st key config now (.ok data) workerRun).1 =
      .ok processedData ∧
    (ScrapingEngine.extractMiss st key config now (.ok data) workerRun).2.1.cache.lookup
      key = some { data := processedData, timestamp := now } := by
  rcases h : ScrapingEngine.processInWorker st.workerPool workerRun data config
    with ⟨res, pool2⟩
  rw [h] at hpw
  simp only at hpw
  subst hpw
  unfold ScrapingEngine.extractMiss
  dsimp only
  rw [h]
  exact ⟨rfl, by simp [List.lookup]⟩

/-- C2. `extract` skips the pipeline exactly when a cache entry for
`(tabId, serialized config)` exists whose age is strictly under the
30,000 ms TTL, in which case it returns that entry's data with the state
untouched; whenever the pipeline runs instead (including on an entry
whose TTL has elapsed) and fetch and post-processing succeed, the
processed result is returned and stored under that key with the current
timestamp. -/
theorem c2_extract_cache_ttl (st : ScrapingEngine.EngineState) (tabId : ℤ)
    (config : ScrapingEngine.Config) (now : ℤ)
    (fetched : Except String (List ScrapingEngine.Row))
    (workerRun : List ScrapingEngine.Row → ScrapingEngine.Config →
      Except String (List ScrapingEngine.Row)) :
    ((ScrapingEngine.extract st tabId config now fetched workerRun).2.2 = false ↔
      ∃ cached, st.cache.lookup (ScrapingEngine.cacheKey tabId config) = some cached ∧
        now - cached.timestamp < ScrapingEngine.CACHE_TTL) ∧
    (∀ cached, st.cache.lookup (ScrapingEngine.cacheKey tabId config) = some cached →
      now - cached.timestamp < ScrapingEngine.CACHE_TTL →
      ScrapingEngine.extract st tabId config now fetched workerRun =
        (.ok cached.data, st, false)) ∧
    ((ScrapingEngine.extract st tabId config now fetched workerRun).2.2 = true →
      ∀ data processedData, fetched = .ok data →
      (ScrapingEngine.processInWorker st.workerPool workerRun data config).1 =
        .ok processedData →
      (ScrapingEngine.extract st tabId config now fetched workerRun).1 =
        .ok processedData ∧
      (ScrapingEngine.extract st tabId config now fetched workerRun).2.1.cache.lookup
        (ScrapingEngine.cacheKey tabId config) =
        some { data := processedData, timestamp := now }) := by
  rcases hl : st.cache.lookup (ScrapingEngine.cacheKey tabId config) with _ | cached
  · have hx : ScrapingEngine.extract st tabId config now fetched workerRun =
        ScrapingEngine.extractMiss st (ScrapingEngine.cacheKey tabId config)
          config now fetched workerRun := by
      unfold ScrapingEngine.extract
      dsimp only
      rw [hl]
    refine ⟨?_, ?_, ?_⟩
    · rw [hx, ScrapingEngine.extractMiss_ran]
      refine iff_of_false (by simp) ?_
      rintro ⟨c, hc, -⟩
      exact Option.noConfusion hc
    · intro c hc
      exact absurd hc (by simp)
    · intro _ data processedData hf hpw
      subst hf
      rw [hx]
      exact ScrapingEngine.extractMiss_stores st _ config now data processedData
        workerRun hpw
  · by_cases ht : now - cached.timestamp < ScrapingEngine.CACHE_TTL
    · have hx : ScrapingEngine.extract st tabId config now fetched workerRun =
          (.ok cached.data, st, false) := by
        unfold ScrapingEngine.extract
        dsimp only
        rw [hl]
        dsimp only
        rw [if_pos ht]
      refine ⟨?_, ?_, ?_⟩
      · rw [hx]
        exact iff_of_true rfl ⟨cached, rfl, ht⟩
      · intro c hc htc
        rw [Option.some.injEq] at hc
        subst hc
        exact hx
      · intro habs
        rw [hx] at habs
        exact absurd habs (by simp)
    · have hx : ScrapingEngine.extract st tabId config now fetched workerRun =
          ScrapingEngine.extractMiss st (ScrapingEngine.cacheKey tabId config)
            config now fetched workerRun := by
        unfold ScrapingEngine.extract
        dsimp only
        rw [hl]
        dsimp only
        rw [if_neg ht]
      refine ⟨?_, ?_, ?_⟩
      · rw [hx, ScrapingEngine.extractMiss_ran]
        refine iff_of_false (by simp) ?_
        rintro ⟨c, hc, htc⟩
        rw [Option.some.injEq] at hc
        subst hc
        exact ht htc
      · intro c hc htc
        rw [Option.some.injEq] at hc
        subst hc
        exact absurd htc ht
      · intro _ data processedData hf hpw
        subst hf
        rw [hx]
        exact ScrapingEngine.extractMiss_stores st _ config now data processedData
          workerRun hpw

/-- C6. Both selector rankers score a locator whose evaluation throws as
-1, exclude every locator whose final score is at most 0, and return at
most five options sorted descending by score. -/
theorem c6_rankers_exclude_and_top5 (evalq : String → Option (List Elem))
    (selectors : List String) (targetElement : Elem) :
    (∀ sel, evalq sel = none →
      TableDetector.scoreSelector evalq targetElement sel =
        { selector := sel, score := -1, matchCount := 0, isExact := false } ∧
      ProductDetector.scoreProductSelector evalq targetElement sel =
        { selector := sel, score := -1, matchCount := 0, isExact := false }) ∧
    (∀ r ∈ TableDetector.rankSelectors evalq selectors targetElement,
      0 < r.score) ∧
    (TableDetector.rankSelectors evalq selectors targetElement).length ≤ 5 ∧
    (TableDetector.rankSelectors evalq selectors targetElement).Sorted rankGE ∧
    (∀ r ∈ ProductDetector.rankProductSelectors evalq selectors targetElement,
      0 < r.score) ∧
    (ProductDetector.rankProductSelectors evalq selectors targetElement).length ≤ 5 ∧
    (ProductDetector.rankProductSelectors evalq selectors targetElement).Sorted rankGE := by
  refine ⟨?_, ?_, ?_, ?_, ?_, ?_, ?_⟩
  · intro sel h
    constructor
    · unfold TableDetector.scoreSelector
      rw [h]
    · unfold ProductDetector.scoreProductSelector
      rw [h]
  · intro r hr
    have hmem := mem_of_mem_insertionSort (List.mem_of_mem_take hr)
    exact of_decide_eq_true (List.mem_filter.mp hmem).2
  · exact List.length_take_le 5 _
  · exact List.Pairwise.sublist (List.take_sublist 5 _)
      (List.sorted_insertionSort rankGE _)
  · intro r hr
    have hmem := mem_of_mem_insertionSort (List.mem_of_mem_take hr)
    exact of_decide_eq_true (List.mem_filter.mp hmem).2
  · exact List.length_take_le 5 _
  · exact List.Pairwise.sublist (List.take_sublist 5 _)
      (List.sorted_insertionSort rankGE _)

/-- A name that is no property of the dispatch object — neither an own
entry nor inherited from `Object.prototype` — looks up `undefined`, the
guard is falsy, and the step is skipped. -/
lemma ScrapingEngine.processStep_skips (p : ScrapingEngine.Processor)
    (v : ScrapingEngine.JsValue)
    (h1 : p.name ∉ ScrapingEngine.ownNames)
    (h2 : p.name ∉ ScrapingEngine.objectProtoMembers) :
    ScrapingEngine.processStep v p = .ok v := by
  simp only [ScrapingEngine.ownNames, List.mem_cons, List.not_mem_nil,
    or_false, not_or] at h1
  simp only [ScrapingEngine.objectProtoMembers, List.mem_cons,
    List.not_mem_nil, or_false, not_or] at h2
  obtain ⟨hd, hs, hf⟩ := h1
  obtain ⟨c1, c2, c3, c4, c5, c6, c7, c8, c9, c10, c11, c12⟩ := h2
  simp [ScrapingEngine.processStep, hd, hs, hf, c1, c2, c3, c4, c5, c6, c7,
    c8, c9, c10, c11, c12]

/-- On the record array, a step whose name stays off the prototype chain
agrees with the plain three-entry dispatch `applyProcessor`. -/
lemma ScrapingEngine.processStep_plain (d : List ScrapingEngine.Row)
    (p : ScrapingEngine.Processor)
    (hp : p.name ∉ ScrapingEngine.objectProtoMembers) :
    ScrapingEngine.processStep (.rows d) p =
      .ok (.rows (ScrapingEngine.applyProcessor d p)) := by
  by_cases hd : p.name = "deduplicate"
  · simp [ScrapingEngine.processStep, ScrapingEngine.applyProcessor, hd,
      ScrapingEngine.jsSetSpread]
  · by_cases hs : p.name = "sort"
    · simp [ScrapingEngine.processStep, ScrapingEngine.applyProcessor, hd, hs,
        ScrapingEngine.jsSortStep]
    · by_cases hf : p.name = "filter"
      · simp [ScrapingEngine.processStep, ScrapingEngine.applyProcessor, hd,
          hs, hf, ScrapingEngine.jsFilterStep]
      · rw [ScrapingEngine.processStep_skips p _ (by
          simp [ScrapingEngine.ownNames, hd, hs, hf]) hp]
        rw [ScrapingEngine.applyProcessor, if_neg hd, if_neg hs, if_neg hf]

/-- Unfolding equation of the inline loop on a non-empty list. -/
lemma ScrapingEngine.runProcessors_cons (v : ScrapingEngine.JsValue)
    (p : ScrapingEngine.Processor) (ps : List ScrapingEngine.Processor) :
    ScrapingEngine.runProcessors v (p :: ps) =
      match ScrapingEngine.processStep v p with
      | .error e => .error e
      | .ok v2 => ScrapingEngine.runProcessors v2 ps := rfl

/-- The inline loop over prototype-free names is the plain fold. -/
lemma ScrapingEngine.runProcessors_plain
    (ps : List ScrapingEngine.Processor) (data : List ScrapingEngine.Row)
    (hplain : ∀ p ∈ ps, p.name ∉ ScrapingEngine.objectProtoMembers) :
    ScrapingEngine.runProcessors (.rows data) ps =
      .ok (.rows (ps.foldl ScrapingEngine.applyProcessor data)) := by
  induction ps generalizing data with
  | nil => rfl
  | cons p rest ih =>
    rw [List.foldl_cons, ScrapingEngine.runProcessors_cons,
      ScrapingEngine.processStep_plain data p
        (hplain p (List.mem_cons_self p rest))]
    exact ih (ScrapingEngine.applyProcessor data p)
      (fun q hq => hplain q (List.mem_cons_of_mem p hq))

/-- On configurations whose processor names stay off the prototype
chain — the regime the caching and worker paths exercise — the full
dynamic-dispatch embedding and `processInline` agree. -/
lemma ScrapingEngine.processInline_agrees_plain
    (data : List ScrapingEngine.Row) (config : ScrapingEngine.Config)
    (hplain : ∀ p ∈ config.processors.getD [],
      p.name ∉ ScrapingEngine.objectProtoMembers) :
    ScrapingEngine.processInlineJs data config =
      .ok (.rows (ScrapingEngine.processInline data config)) := by
  rcases h : config.processors with _ | ps
  · unfold ScrapingEngine.processInlineJs ScrapingEngine.processInline
    rw [h]
  · rw [h] at hplain
    simp only [Option.getD_some] at hplain
    unfold ScrapingEngine.processInlineJs ScrapingEngine.processInline
    rw [h]
    exact ScrapingEngine.runProcessors_plain ps data hplain

/-- C10 (amended). Inline post-processing applies the named steps in
list order through the object-literal lookup `processors[name]`, which
consults the prototype chain: `deduplicate`, `sort` and `filter`
dispatch to the table's own entries; a name that is no property of the
dispatch object at all — neither an own entry nor an `Object.prototype`
member — is silently skipped, so with `config.processors` absent or
holding only such names the input data is returned unchanged and no
error is raised; but a name inherited from `Object.prototype` is not
skipped: the member is invoked (`toString` replaces the data with the
string `"[object Object]"`, `valueOf` with the dispatch object itself)
or, for the non-callable `__proto__`, a `TypeError` is thrown and
propagates. -/
theorem c10_prototype_dispatch (data : List ScrapingEngine.Row)
    (config : ScrapingEngine.Config) :
    (config.processors = none →
      ScrapingEngine.processInlineJs data config = .ok (.rows data)) ∧
    (∀ (v v2 : ScrapingEngine.JsValue) (p : ScrapingEngine.Processor)
        (ps : List ScrapingEngine.Processor),
      ScrapingEngine.processStep v p = .ok v2 →
      ScrapingEngine.runProcessors v (p :: ps) =
        ScrapingEngine.runProcessors v2 ps) ∧
    (∀ (v : ScrapingEngine.JsValue) (p : ScrapingEngine.Processor)
        (ps : List ScrapingEngine.Processor) (e : String),
      ScrapingEngine.processStep v p = .error e →
      ScrapingEngine.runProcessors v (p :: ps) = .error e) ∧
    (∀ (p : ScrapingEngine.Processor) (v : ScrapingEngine.JsValue),
      p.name ∉ ScrapingEngine.ownNames →
      p.name ∉ ScrapingEngine.objectProtoMembers →
      ScrapingEngine.processStep v p = .ok v) ∧
    (∀ ps, config.processors = some ps →
      (∀ p ∈ ps, p.name ∉ ScrapingEngine.ownNames ∧
        p.name ∉ ScrapingEngine.objectProtoMembers) →
      ScrapingEngine.processInlineJs data config = .ok (.rows data)) ∧
    (∀ (key : String) (pred : ScrapingEngine.Row → Bool),
      ScrapingEngine.processStep (.rows data) ⟨"toString", key, pred⟩ =
        .ok (.str "[object Object]") ∧
      ScrapingEngine.processStep (.rows data) ⟨"valueOf", key, pred⟩ =
        .ok .dispatchObject ∧
      ScrapingEngine.processStep (.rows data) ⟨"__proto__", key, pred⟩ =
        .error "TypeError: processors.__proto__ is not a function") := by
  refine ⟨?_, ?_, ?_, ?_, ?_, ?_⟩
  · intro h
    unfold ScrapingEngine.processInlineJs
    rw [h]
  · intro v v2 p ps h
    rw [ScrapingEngine.runProcessors_cons, h]
  · intro v p ps e h
    rw [ScrapingEngine.runProcessors_cons, h]
  · exact fun p v h1 h2 => ScrapingEngine.processStep_skips p v h1 h2
  · have hfold : ∀ (qs : List ScrapingEngine.Processor)
        (d : List ScrapingEngine.Row),
        (∀ p ∈ qs, p.name ∉ ScrapingEngine.ownNames) →
        qs.foldl ScrapingEngine.applyProcessor d = d := by
      intro qs
      induction qs with
      | nil => intro d _; rfl
      | cons p rest ih =>
        intro d hall
        have hskip : ScrapingEngine.applyProcessor d p = d := by
          have ho := hall p (List.mem_cons_self p rest)
          simp only [ScrapingEngine.ownNames, List.mem_cons,
            List.not_mem_nil, or_false, not_or] at ho
          obtain ⟨hd, hs, hf⟩ := ho
          rw [ScrapingEngine.applyProcessor, if_neg hd, if_neg hs, if_neg hf]
        rw [List.foldl_cons, hskip]
        exact ih d (fun q hq => hall q (List.mem_cons_of_mem p hq))
    intro ps h hall
    have hres := ScrapingEngine.processInline_agrees_plain data config
      (by rw [h]; intro p hp; exact (hall p hp).2)
    have hunch : ScrapingEngine.processInline data config = data := by
      unfold ScrapingEngine.processInline
      rw [h]
      exact hfold ps data (fun p hp => (hall p hp).1)
    rw [hres, hunch]
  · intro key pred
    refine ⟨?_, ?_, ?_⟩ <;> simp [ScrapingEngine.processStep]

/-- C10 counterexample. A processor named `toString` is not skipped: the
inherited `Object.prototype.toString` is found truthy and invoked,
replacing the record array with the string `"[object Object]"`; and a
processor named `__proto__` raises a `TypeError` instead of being
silently ignored. -/
theorem c10_counterexample :
    ScrapingEngine.processInlineJs [exRow]
      { processors := some [{ name := "toString" }] } =
      .ok (.str "[object Object]") ∧
    (.ok (.str "[object Object]") : Except String ScrapingEngine.JsValue) ≠
      .ok (.rows [exRow]) ∧
    ScrapingEngine.processInlineJs [exRow]
      { processors := some [{ name := "__proto__" }] } =
      .error "TypeError: processors.__proto__ is not a function" := by
  refine ⟨?_, ?_, ?_⟩ <;> with_unfolding_all decide
